import Mathlib

/-!
Shallow embedding of the cloud functions REST client layer
(`src/unnamed/part_000` and `src/gcp/cloudFunctions/operations.ts`).

Asynchronous functions are embedded as pure functions: the outcome of the
single outbound HTTP call an operation issues is passed in as an
`Except ApiError _` argument, and each operation returns the request it
issued, the log lines it emitted, and its result (`Except` models
resolution versus rejection of the returned promise).
-/

set_option autoImplicit false

namespace CF

/-- Source constant `API_VERSION`. -/
def API_VERSION : String := "v1"

/-- Source constant `ERR_DEPLOYMENT_QUOTA_EXCEEDED_MESSAGE`. -/
def ERR_DEPLOYMENT_QUOTA_EXCEEDED_MESSAGE : String :=
  "You have exceeded your deployment quota, please deploy your functions in " ++
  "batches by using the --only flag, and wait a few minutes before deploying " ++
  "again. Go to https://firebase.google.com/docs/cli/#partial_deploys to " ++
  "learn more."

/-- Source constant `ERR_GENERATE_UPLOAD_URL_FAILURE_MESSAGE`. -/
def ERR_GENERATE_UPLOAD_URL_FAILURE_MESSAGE : String :=
  "\n\nThere was an issue deploying your functions. Verify that your project " ++
  "has a Google App Engine instance setup at " ++
  "https://console.cloud.google.com/appengine and try again. If this issue " ++
  "persists, please contact support."

/-- Source interface `Target`. -/
structure Target where
  functionName : String
  locationName : String
  projectId : String

/-- Source enum `OperationType` with members Create, Delete, Update. -/
inductive OperationType
  | create
  | delete
  | update
deriving DecidableEq

/-- The string value of each `OperationType` member, as declared in the enum. -/
def OperationType.str : OperationType → String
  | .create => "create"
  | .delete => "delete"
  | .update => "update"

/-- Source union type `CloudFunctionStatus`. -/
inductive CloudFunctionStatus
  | CLOUD_FUNCTION_STATUS_UNSPECIFIED
  | ACTIVE
  | OFFLINE
  | DEPLOY_IN_PROGRESS
  | DELETE_IN_PROGRESS
  | UNKNOWN

/-- Source interface `SourceRepository`. -/
structure SourceRepository where
  url : String
  deployedUrl : String

/-- Source union `CloudFunctionSourceCode`: exactly one of three variants. -/
inductive CloudFunctionSourceCode
  | sourceArchiveUrl (sourceArchiveUrl : String)
  | sourceRepository (sourceRepository : SourceRepository)
  | sourceUploadUrl (sourceUploadUrl : String)

/-- Source interface `HttpsTrigger`. -/
structure HttpsTrigger where
  url : String

/-- Source interface `FailurePolicy` (field `retry` is an empty object). -/
structure FailurePolicy where
  retry : Unit

/-- Source interface `EventTrigger`. -/
structure EventTrigger where
  eventType : String
  resource : String
  service : String
  failurePolicy : FailurePolicy

/-- Source type `Trigger = HttpsTrigger & EventTrigger` (an intersection type). -/
structure Trigger extends HttpsTrigger, EventTrigger

/-- Source type `CloudFunction = CloudFunctionBase & CloudFunctionSourceCode & Trigger`.
String-keyed record fields (`labels`, `environmentVariables`) are embedded as
association lists. -/
structure CloudFunction where
  name : String
  description : String
  status : CloudFunctionStatus
  entryPoint : String
  runtime : String
  timeout : String
  availableMemoryMb : Nat
  serviceAccountEmail : String
  updateTime : String
  versionId : String
  labels : List (String × String)
  environmentVariables : List (String × String)
  network : String
  maxInstances : Nat
  vpcConnector : String
  sourceCode : CloudFunctionSourceCode
  trigger : Trigger

/-- Argument record of `makePath`: the function name is optional
(`Omit<Target, "functionName"> & Partial<Pick<Target, "functionName">>`).
`none` models an absent field, so the `typeof functionName === "string"` test
of the source is `Option.isSome` here. -/
structure PathArgs where
  projectId : String
  locationName : String
  functionName : Option String := none

/-- Source function `makePath`. -/
def makePath (a : PathArgs) : String :=
  let projectPath := "/" ++ API_VERSION ++ "/projects/" ++ a.projectId
  let locationPath := projectPath ++ "/locations/" ++ a.locationName
  let functionsPath := locationPath ++ "/functions"
  match a.functionName with
  | some functionName => functionsPath ++ "/" ++ functionName
  | none => functionsPath

/-- Leveled logging of the logging collaborator. -/
inductive LogLevel
  | debug
  | info
  | warning
deriving DecidableEq

/-- One emitted log line: its level and its text. -/
abbrev LogLine := LogLevel × String

/-- The error shape the HTTP transport collaborator rejects with: a message and
the optional nested response status code. `responseStatusCode` embeds the
lodash lookup `_.get(error, ["context", "response", "statusCode"])`; it is
`none` whenever any link of that path is missing. -/
structure ApiError where
  message : String
  responseStatusCode : Option Nat := none
deriving DecidableEq

/-- The domain error built by `makeFirebaseError`:
`new FirebaseError(message, { original, context: { function } })`. -/
structure FirebaseError where
  message : String
  original : ApiError
  contextFunction : String
deriving DecidableEq

/-- The outbound HTTP request an operation issues: method, path and, for the
patch operation, the comma-joined `updateMask` query parameter. Auth, origin
and request-body options of `api.request` are owned by the excluded transport
collaborator and are not modelled; the retry-code hint is kept because the
upload-url request sets it. -/
structure HttpRequest where
  method : String
  path : String
  updateMask : Option String := none
  retryCodes : List Nat := []
deriving DecidableEq

/-- The observable outcome of one operation: the request it issued, the log
lines it emitted, and the value or error its promise settles with. -/
structure OpResult (ε : Type) (β : Type) where
  request : HttpRequest
  logs : List LogLine
  result : Except ε β

/-- Source function `makeFirebaseError`, embedded as the pair of the log lines
it emits and the `FirebaseError` it throws. The terminal color styling of
`clc.bold.yellow` is elided from the warning text. -/
def makeFirebaseError (functionName : String) (operationType : OperationType)
    (error : ApiError) : List LogLine × FirebaseError :=
  let warnLog : LogLine :=
    (LogLevel.warning,
      "functions:" ++ " failed to " ++ operationType.str ++ " function " ++ functionName)
  let branchLogs : List LogLine :=
    if error.responseStatusCode = some 429 then
      [(LogLevel.debug, error.message), (LogLevel.info, ERR_DEPLOYMENT_QUOTA_EXCEEDED_MESSAGE)]
    else
      [(LogLevel.info, error.message)]
  (warnLog :: branchLogs,
    { message := "Failed to " ++ operationType.str ++ " function " ++ functionName,
      original := error,
      contextFunction := functionName })

/-- Modelled from the spec: `logAndRejectOperation`, called on the failure
paths of the patch and delete operations, is not part of the sources under
`src/`. The spec states that a patch or delete failure "follows the same
normalization as create", so it is modelled as exactly the behavior of
`makeFirebaseError`. -/
def logAndRejectOperation (functionName : String) (operationType : OperationType)
    (error : ApiError) : List LogLine × FirebaseError :=
  makeFirebaseError functionName operationType error

/-- Response body of `generateUploadUrl`. -/
structure UploadUrlBody where
  uploadUrl : String

/-- Source function `generateUploadUrl`. On failure it logs the remediation
hint and re-throws the original error value unchanged. -/
def generateUploadUrl (projectId : String) (locationName : String)
    (apiResult : Except ApiError UploadUrlBody) : OpResult ApiError String :=
  let functionsPath := makePath { projectId := projectId, locationName := locationName }
  let generateUploadUrlPath := functionsPath ++ ":generateUploadUrl"
  let request : HttpRequest := { method := "POST", path := generateUploadUrlPath, retryCodes := [503] }
  match apiResult with
  | .ok body => { request := request, logs := [], result := .ok body.uploadUrl }
  | .error e =>
      { request := request,
        logs := [(LogLevel.info, ERR_GENERATE_UPLOAD_URL_FAILURE_MESSAGE)],
        result := .error e }

/-- Source function `createFunction`. The response body is passed through
untouched, so it is a type parameter. On failure the error thrown by
`makeFirebaseError cloudFunction.name OperationType.create` propagates (the
source writes `throw makeFirebaseError(...)` inside an async function; the
promise wrapper around the settled error is invisible in this embedding). -/
def createFunction {β : Type} (target : Target) (cloudFunction : CloudFunction)
    (apiResult : Except ApiError β) : OpResult FirebaseError β :=
  let functionsPath := makePath
    { projectId := target.projectId, locationName := target.locationName,
      functionName := some target.functionName }
  let request : HttpRequest := { method := "POST", path := functionsPath }
  match apiResult with
  | .ok body => { request := request, logs := [], result := .ok body }
  | .error e =>
      let thrown := makeFirebaseError cloudFunction.name OperationType.create e
      { request := request, logs := thrown.1, result := .error thrown.2 }

/-- JavaScript truthiness of an optionally-present string field:
false when the field is absent and when it is the empty string. -/
def jsTruthyString : Option String → Bool
  | none => false
  | some s => s != ""

/-- JavaScript truthiness of an optionally-present numeric field:
false when the field is absent and when it is 0. -/
def jsTruthyNat : Option Nat → Bool
  | none => false
  | some n => n != 0

/-- The input record the body of `patchFunction` actually reads: the source
body reads every value from an `options` object (a leftover of the refactor,
not bound by the declared parameter list), so that object is the input of the
embedding. `eventTriggerKeys` is `_.keys(options.trigger.eventTrigger)`
together with the presence of the event trigger object: `none` models an
absent (falsy) `options.trigger.eventTrigger`, and `some ks` models a present
object with key list `ks` (a present object is truthy even when empty). -/
structure PatchOptions where
  functionName : String
  projectId : String
  locationName : String
  sourceUploadUrl : String
  labels : List (String × String)
  eventTriggerKeys : Option (List String)
  runtime : Option String := none
  availableMemoryMb : Option Nat := none
  timeout : Option String := none

/-- The update-mask list built by the body of `patchFunction`:
`["sourceUploadUrl", "name", "labels"]`, extended with `"runtime"`,
`"availableMemoryMb"` and `"timeout"` under the truthiness tests
`if (options.runtime)` etc., then with `"eventTrigger." + subkey` for each key
of a present event trigger, or with `"httpsTrigger"` otherwise. -/
def patchMasks (options : PatchOptions) : List String :=
  let masks := ["sourceUploadUrl", "name", "labels"]
  let masks := if jsTruthyString options.runtime then masks ++ ["runtime"] else masks
  let masks := if jsTruthyNat options.availableMemoryMb then masks ++ ["availableMemoryMb"] else masks
  let masks := if jsTruthyString options.timeout then masks ++ ["timeout"] else masks
  match options.eventTriggerKeys with
  | some keys => masks ++ keys.map (fun subkey => "eventTrigger." ++ subkey)
  | none => masks ++ ["httpsTrigger"]

/-- Response body of the patch and delete requests as used by the source:
only `resp.body.name` is read. -/
structure OperationResponseBody where
  name : String

/-- The lightweight operation record the patch and delete operations resolve
with: `{ func, done: false, name: resp.body.name, type: ... }`. -/
structure OperationRecord where
  func : String
  done : Bool
  name : String
  type : String
deriving DecidableEq

/-- Source function `patchFunction`. The body reads its input from `options`
(see `PatchOptions`). The variables `func` and `endpoint` are free in the
source body; modelled from the spec: the spec states patch issues its request
"to the specific resource path" and resolves with the target identifier, which
is the same `projects/.../locations/.../functions/...` construction the delete
operation performs. The request body object (`data`) is not modelled; the
update mask is carried as the comma-joined query parameter. -/
def patchFunction (options : PatchOptions)
    (apiResult : Except ApiError OperationResponseBody) : OpResult FirebaseError OperationRecord :=
  let func := "projects/" ++ options.projectId ++ "/locations/" ++ options.locationName
    ++ "/functions/" ++ options.functionName
  let endpoint := "/" ++ API_VERSION ++ "/" ++ func
  let masks := patchMasks options
  let request : HttpRequest :=
    { method := "PATCH", path := endpoint, updateMask := some (String.intercalate "," masks) }
  match apiResult with
  | .ok resp =>
      { request := request, logs := [],
        result := .ok { func := func, done := false, name := resp.name, type := "update" } }
  | .error e =>
      let thrown := logAndRejectOperation options.functionName OperationType.update e
      { request := request, logs := thrown.1, result := .error thrown.2 }

/-- The input record of `deleteFunction` (`options.projectId`,
`options.region`, `options.functionName`). -/
structure DeleteOptions where
  projectId : String
  region : String
  functionName : String

/-- Source function `deleteFunction`. -/
def deleteFunction (options : DeleteOptions)
    (apiResult : Except ApiError OperationResponseBody) : OpResult FirebaseError OperationRecord :=
  let location := "projects/" ++ options.projectId ++ "/locations/" ++ options.region
  let func := location ++ "/functions/" ++ options.functionName
  let endpoint := "/" ++ API_VERSION ++ "/" ++ func
  let request : HttpRequest := { method := "DELETE", path := endpoint }
  match apiResult with
  | .ok resp =>
      { request := request, logs := [],
        result := .ok { func := func, done := false, name := resp.name, type := "delete" } }
  | .error e =>
      let thrown := logAndRejectOperation options.functionName OperationType.delete e
      { request := request, logs := thrown.1, result := .error thrown.2 }

/-- One element of the `functions` array of a list response. The
`functionName` field is absent in the server response (`none`) and is attached
by the client. -/
structure ListedFunction where
  name : String
  functionName : Option String := none
deriving DecidableEq

/-- Response body of the list request: the `functions` field may be missing
(`resp.body.functions || []` in the source; an array value, even an empty one,
is truthy, so `none` models only a missing or null field). -/
structure ListResponseBody where
  functions : Option (List ListedFunction)

/-- JavaScript `lastIndexOf` on a character list: the index of the last
occurrence, or `none` where the source would produce -1. -/
def lastIndexOfChar (c : Char) : List Char → Option Nat
  | [] => none
  | a :: as =>
    match lastIndexOfChar c as with
    | some i => some (i + 1)
    | none => if a = c then some 0 else none

/-- The attachment `f.name.substring(f.name.lastIndexOf("/") + 1)` performed
by `listFunctions`: JavaScript `substring(i)` drops the first `i` characters,
and `lastIndexOf` yields -1 (hence a drop of 0) when no separator occurs. -/
def jsTailAfterLastSlash (s : String) : String :=
  match lastIndexOfChar '/' s.data with
  | some i => ⟨s.data.drop (i + 1)⟩
  | none => ⟨s.data.drop 0⟩

/-- Source function `listFunctions`. On success every element of the
(possibly missing) `functions` array gets the short `functionName` attached;
on failure the operation logs two debug lines and rejects with
`err.message` alone (a bare string, not a wrapped error). -/
def listFunctions (projectId : String) (region : String)
    (apiResult : Except ApiError ListResponseBody) : OpResult String (List ListedFunction) :=
  let endpoint := "/" ++ API_VERSION ++ "/projects/" ++ projectId ++ "/locations/"
    ++ region ++ "/functions"
  let request : HttpRequest := { method := "GET", path := endpoint }
  match apiResult with
  | .ok resp =>
      let functionsList := resp.functions.getD []
      let functionsList := functionsList.map
        (fun f => { f with functionName := some (jsTailAfterLastSlash f.name) })
      { request := request, logs := [], result := .ok functionsList }
  | .error err =>
      { request := request,
        logs := [(LogLevel.debug, "[functions] failed to list functions for " ++ projectId),
                 (LogLevel.debug, "[functions] " ++ err.message)],
        result := .error err.message }

/-- Source interface `Target` of `operations.ts`: an operation resource name. -/
structure OperationTarget where
  name : String

/-- Source function `getOperation` of `operations.ts`. The response body is
returned untouched; on failure two debug lines are logged and the original
error value is re-thrown unchanged. -/
def getOperation {β : Type} (target : OperationTarget)
    (apiResult : Except ApiError β) : OpResult ApiError β :=
  let request : HttpRequest := { method := "GET", path := "/" ++ API_VERSION ++ "/" ++ target.name }
  match apiResult with
  | .ok body => { request := request, logs := [], result := .ok body }
  | .error e =>
      { request := request,
        logs := [(LogLevel.debug, "[functions] failed to get status of operation: " ++ target.name),
                 (LogLevel.debug, "[functions] " ++ e.message)],
        result := .error e }

/-! ## General helper lemmas -/

/-- Associativity of string concatenation, proved from the list level. -/
theorem strAppend_assoc (x y z : String) : x ++ y ++ z = x ++ (y ++ z) := by
  cases x with | mk dx =>
  cases y with | mk dy =>
  cases z with | mk dz =>
  exact congrArg String.mk (List.append_assoc dx dy dz)

/-- The character data of a concatenation is the concatenation of the data. -/
theorem strData_append (x y : String) : (x ++ y).data = x.data ++ y.data := by
  cases x with | mk dx =>
  cases y with | mk dy =>
  rfl

/-- The length of a concatenation is the sum of the lengths. -/
theorem strLength_append (x y : String) : (x ++ y).length = x.length + y.length := by
  cases x with | mk dx =>
  cases y with | mk dy =>
  show (dx ++ dy).length = dx.length + dy.length
  exact List.length_append dx dy

/-! ## Claim C9: makePath -/

/-- Claim C9: for every project id `p` and location `l`, `makePath` returns
the collection path `/v1/projects/p/locations/l/functions` when no function
name is supplied, and the item path `/v1/projects/p/locations/l/functions/f`
when function name `f` is supplied. -/
theorem makePath_collection_and_item (p l : String) :
    makePath { projectId := p, locationName := l } =
      "/v1/projects/" ++ p ++ "/locations/" ++ l ++ "/functions"
    ∧ ∀ f : String, makePath { projectId := p, locationName := l, functionName := some f } =
      "/v1/projects/" ++ p ++ "/locations/" ++ l ++ "/functions/" ++ f := by
  constructor
  · rfl
  · intro f
    show "/v1/projects/" ++ p ++ "/locations/" ++ l ++ "/functions" ++ "/" ++ f =
      "/v1/projects/" ++ p ++ "/locations/" ++ l ++ "/functions/" ++ f
    refine congrArg (fun s => s ++ f) ?_
    rw [strAppend_assoc]
    rfl

/-! ## Claim C1: the path of the create request -/

/-- A concrete descriptor with an HTTPS trigger, for evaluating the create
operation on the end-to-end scenario input of the spec. -/
def sampleCloudFunction : CloudFunction :=
  { name := "projects/proj/locations/us-central1/functions/foo"
    description := ""
    status := .ACTIVE
    entryPoint := "foo"
    runtime := "nodejs10"
    timeout := "60s"
    availableMemoryMb := 256
    serviceAccountEmail := ""
    updateTime := ""
    versionId := ""
    labels := []
    environmentVariables := []
    network := ""
    maxInstances := 0
    vpcConnector := ""
    sourceCode := .sourceUploadUrl "https://storage.googleapis.com/upload"
    trigger :=
      { url := "https://us-central1-proj.cloudfunctions.net/foo"
        eventType := ""
        resource := ""
        service := ""
        failurePolicy := { retry := () } } }

/-- Claim C1 (code bug): evaluated at the target of the end-to-end scenario,
the create operation issues its POST to the item path with the function name
appended, which differs from the collection path the claim requires. -/
theorem createFunction_posts_to_item_path :
    (createFunction { projectId := "proj", locationName := "us-central1", functionName := "foo" }
        sampleCloudFunction (Except.ok () : Except ApiError Unit)).request.method = "POST"
    ∧ (createFunction { projectId := "proj", locationName := "us-central1", functionName := "foo" }
        sampleCloudFunction (Except.ok () : Except ApiError Unit)).request.path =
      "/v1/projects/proj/locations/us-central1/functions/foo"
    ∧ ((createFunction { projectId := "proj", locationName := "us-central1", functionName := "foo" }
        sampleCloudFunction (Except.ok () : Except ApiError Unit)).request.path ==
      "/v1/projects/proj/locations/us-central1/functions") = false := by
  refine ⟨rfl, rfl, by decide⟩

/-! ## Claims C2 and C3: the update mask of the patch operation -/

/-- Whether the first list starts with the second list as an initial run. -/
def listStartsWith : List Char → List Char → Bool
  | [], _ => true
  | _ :: _, [] => false
  | a :: pat, b :: l => a == b && listStartsWith pat l

/-- Whether a mask entry is a path of the kind `eventTrigger.<subkey>`. -/
def isEventTriggerPath (p : String) : Bool :=
  listStartsWith "eventTrigger.".data p.data

/-- The trigger-dependent tail of the update mask. -/
def triggerMasks (eventTriggerKeys : Option (List String)) : List String :=
  match eventTriggerKeys with
  | some keys => keys.map (fun subkey => "eventTrigger." ++ subkey)
  | none => ["httpsTrigger"]

/-- The trigger-independent head of the update mask. -/
def basePatchMasks (options : PatchOptions) : List String :=
  ["sourceUploadUrl", "name", "labels"]
    ++ (if jsTruthyString options.runtime then ["runtime"] else [])
    ++ (if jsTruthyNat options.availableMemoryMb then ["availableMemoryMb"] else [])
    ++ (if jsTruthyString options.timeout then ["timeout"] else [])

theorem patchMasks_decompose (options : PatchOptions) :
    patchMasks options = basePatchMasks options ++ triggerMasks options.eventTriggerKeys := by
  unfold patchMasks basePatchMasks triggerMasks
  cases options.eventTriggerKeys <;>
    cases h1 : jsTruthyString options.runtime <;>
    cases h2 : jsTruthyNat options.availableMemoryMb <;>
    cases h3 : jsTruthyString options.timeout <;>
    simp [List.append_assoc]

theorem basePatchMasks_filter_event (options : PatchOptions) :
    (basePatchMasks options).filter isEventTriggerPath = [] := by
  unfold basePatchMasks
  cases h1 : jsTruthyString options.runtime <;>
    cases h2 : jsTruthyNat options.availableMemoryMb <;>
    cases h3 : jsTruthyString options.timeout <;>
    decide

theorem basePatchMasks_count_https (options : PatchOptions) :
    (basePatchMasks options).count "httpsTrigger" = 0 := by
  unfold basePatchMasks
  cases h1 : jsTruthyString options.runtime <;>
    cases h2 : jsTruthyNat options.availableMemoryMb <;>
    cases h3 : jsTruthyString options.timeout <;>
    decide

theorem basePatchMasks_always (options : PatchOptions) :
    "sourceUploadUrl" ∈ basePatchMasks options ∧ "name" ∈ basePatchMasks options
      ∧ "labels" ∈ basePatchMasks options := by
  unfold basePatchMasks
  cases h1 : jsTruthyString options.runtime <;>
    cases h2 : jsTruthyNat options.availableMemoryMb <;>
    cases h3 : jsTruthyString options.timeout <;>
    decide

theorem basePatchMasks_runtime (options : PatchOptions) :
    "runtime" ∈ basePatchMasks options ↔ jsTruthyString options.runtime = true := by
  unfold basePatchMasks
  cases h1 : jsTruthyString options.runtime <;>
    cases h2 : jsTruthyNat options.availableMemoryMb <;>
    cases h3 : jsTruthyString options.timeout <;>
    decide

theorem basePatchMasks_memory (options : PatchOptions) :
    "availableMemoryMb" ∈ basePatchMasks options ↔ jsTruthyNat options.availableMemoryMb = true := by
  unfold basePatchMasks
  cases h1 : jsTruthyString options.runtime <;>
    cases h2 : jsTruthyNat options.availableMemoryMb <;>
    cases h3 : jsTruthyString options.timeout <;>
    decide

theorem basePatchMasks_timeout (options : PatchOptions) :
    "timeout" ∈ basePatchMasks options ↔ jsTruthyString options.timeout = true := by
  unfold basePatchMasks
  cases h1 : jsTruthyString options.runtime <;>
    cases h2 : jsTruthyNat options.availableMemoryMb <;>
    cases h3 : jsTruthyString options.timeout <;>
    decide

theorem listStartsWith_append (pat rest : List Char) :
    listStartsWith pat (pat ++ rest) = true := by
  induction pat with
  | nil => rfl
  | cons a as ih => simp [listStartsWith, ih]

theorem isEventTriggerPath_append (k : String) :
    isEventTriggerPath ("eventTrigger." ++ k) = true := by
  unfold isEventTriggerPath
  rw [strData_append]
  exact listStartsWith_append "eventTrigger.".data k.data

theorem eventPath_ne_httpsTrigger (k : String) : ("eventTrigger." ++ k) ≠ "httpsTrigger" := by
  intro h
  have hl := congrArg String.length h
  rw [strLength_append] at hl
  have h13 : ("eventTrigger." : String).length = 13 := rfl
  have h12 : ("httpsTrigger" : String).length = 12 := rfl
  rw [h13, h12] at hl
  omega

theorem not_mem_triggerMasks {x : String} (h1 : isEventTriggerPath x = false)
    (h2 : x ≠ "httpsTrigger") (o : Option (List String)) : x ∉ triggerMasks o := by
  cases o with
  | none =>
      intro hx
      simp [triggerMasks] at hx
      exact h2 hx
  | some ks =>
      intro hx
      simp only [triggerMasks, List.mem_map] at hx
      obtain ⟨k, _, hk⟩ := hx
      rw [← hk, isEventTriggerPath_append] at h1
      simp at h1

theorem triggerMasks_event_filter (ks : List String) :
    (triggerMasks (some ks)).filter isEventTriggerPath =
      ks.map (fun subkey => "eventTrigger." ++ subkey) := by
  simp only [triggerMasks]
  rw [List.filter_eq_self]
  intro x hx
  obtain ⟨k, _, hk⟩ := List.mem_map.mp hx
  rw [← hk]
  exact isEventTriggerPath_append k

theorem triggerMasks_event_count_https (ks : List String) :
    (triggerMasks (some ks)).count "httpsTrigger" = 0 := by
  simp only [triggerMasks]
  induction ks with
  | nil => rfl
  | cons k ks ih =>
      simp only [List.map_cons, List.count_cons, ih]
      have := eventPath_ne_httpsTrigger k
      simp [this]

/-- Claim C2 (amended): when no event trigger is supplied, the update mask
contains the path `httpsTrigger` exactly once and no `eventTrigger.<subkey>`
path; when an event trigger object is supplied, the mask contains no
`httpsTrigger` path and its `eventTrigger.<subkey>` paths are exactly one per
sub-field of the supplied event trigger - hence none at all when the supplied
event trigger object has no sub-fields. -/
theorem patchMasks_trigger_paths (options : PatchOptions) :
    (options.eventTriggerKeys = none →
      (patchMasks options).count "httpsTrigger" = 1
        ∧ (patchMasks options).filter isEventTriggerPath = [])
    ∧ ∀ ks : List String, options.eventTriggerKeys = some ks →
      (patchMasks options).count "httpsTrigger" = 0
        ∧ (patchMasks options).filter isEventTriggerPath =
            ks.map (fun subkey => "eventTrigger." ++ subkey) := by
  constructor
  · intro h0
    rw [patchMasks_decompose, h0]
    constructor
    · rw [List.count_append, basePatchMasks_count_https]
      decide
    · rw [List.filter_append, basePatchMasks_filter_event, List.nil_append]
      decide
  · intro ks hks
    rw [patchMasks_decompose, hks]
    constructor
    · rw [List.count_append, basePatchMasks_count_https, triggerMasks_event_count_https]
    · rw [List.filter_append, basePatchMasks_filter_event, List.nil_append,
        triggerMasks_event_filter]

/-- The disjunction claim C2 states about the trigger paths of an update
mask: the mask has `eventTrigger.<subkey>` paths and no `httpsTrigger` path,
or it has the `httpsTrigger` path and no `eventTrigger.<subkey>` path. -/
def triggerMaskEitherOr (m : List String) : Bool :=
  (m.any isEventTriggerPath && !(m.contains "httpsTrigger"))
    || (!(m.any isEventTriggerPath) && m.contains "httpsTrigger")

/-- Claim C2 counterexample: for a patch input supplying an event trigger
object with no sub-fields, the update mask contains no trigger path of either
kind, so the either-or property of the claim fails. -/
theorem patchMasks_trigger_neither_kind :
    triggerMaskEitherOr (patchMasks
      { functionName := "foo", projectId := "proj", locationName := "us-central1",
        sourceUploadUrl := "https://storage.googleapis.com/upload", labels := [],
        eventTriggerKeys := some [] }) = false := by
  decide

/-- Claim C2 witness: the amended statement evaluated at a patch input with no
event trigger and at one whose event trigger has the single sub-field
`eventType`. -/
theorem patchMasks_trigger_paths_witness :
    ((patchMasks
        { functionName := "foo", projectId := "proj", locationName := "us-central1",
          sourceUploadUrl := "u", labels := [], eventTriggerKeys := none }).count "httpsTrigger" = 1
      ∧ (patchMasks
        { functionName := "foo", projectId := "proj", locationName := "us-central1",
          sourceUploadUrl := "u", labels := [], eventTriggerKeys := none }).filter
          isEventTriggerPath = [])
    ∧ ((patchMasks
        { functionName := "foo", projectId := "proj", locationName := "us-central1",
          sourceUploadUrl := "u", labels := [],
          eventTriggerKeys := some ["eventType"] }).count "httpsTrigger" = 0
      ∧ (patchMasks
        { functionName := "foo", projectId := "proj", locationName := "us-central1",
          sourceUploadUrl := "u", labels := [],
          eventTriggerKeys := some ["eventType"] }).filter isEventTriggerPath =
          ["eventTrigger.eventType"]) := by
  refine ⟨(patchMasks_trigger_paths _).1 rfl, ?_⟩
  have h := (patchMasks_trigger_paths
    { functionName := "foo", projectId := "proj", locationName := "us-central1",
      sourceUploadUrl := "u", labels := [], eventTriggerKeys := some ["eventType"] }).2
    ["eventType"] rfl
  exact ⟨h.1, h.2.trans (by decide)⟩

/-- Claim C3 (amended): the update mask contains the path for each of the
optional fields runtime, availableMemoryMb and timeout exactly when that field
is present with a truthy value (the source tests `if (options.runtime)` and
the like, so an empty string or a zero counts as absent), always contains the
sourceUploadUrl, name and labels paths, and contains no path for an absent
optional field. -/
theorem patchMasks_field_paths (options : PatchOptions) :
    ("sourceUploadUrl" ∈ patchMasks options ∧ "name" ∈ patchMasks options
      ∧ "labels" ∈ patchMasks options)
    ∧ ("runtime" ∈ patchMasks options ↔ jsTruthyString options.runtime = true)
    ∧ ("availableMemoryMb" ∈ patchMasks options ↔ jsTruthyNat options.availableMemoryMb = true)
    ∧ ("timeout" ∈ patchMasks options ↔ jsTruthyString options.timeout = true) := by
  rw [patchMasks_decompose]
  obtain ⟨hs, hn, hl⟩ := basePatchMasks_always options
  refine ⟨⟨List.mem_append_left _ hs, List.mem_append_left _ hn, List.mem_append_left _ hl⟩,
    ?_, ?_, ?_⟩
  · constructor
    · intro h
      rcases List.mem_append.mp h with h | h
      · exact (basePatchMasks_runtime options).mp h
      · exact absurd h (not_mem_triggerMasks (by decide) (by decide) _)
    · intro h
      exact List.mem_append_left _ ((basePatchMasks_runtime options).mpr h)
  · constructor
    · intro h
      rcases List.mem_append.mp h with h | h
      · exact (basePatchMasks_memory options).mp h
      · exact absurd h (not_mem_triggerMasks (by decide) (by decide) _)
    · intro h
      exact List.mem_append_left _ ((basePatchMasks_memory options).mpr h)
  · constructor
    · intro h
      rcases List.mem_append.mp h with h | h
      · exact (basePatchMasks_timeout options).mp h
      · exact absurd h (not_mem_triggerMasks (by decide) (by decide) _)
    · intro h
      exact List.mem_append_left _ ((basePatchMasks_timeout options).mpr h)

/-- Claim C3 counterexample: a patch input supplying `availableMemoryMb` as 0
has the field present, yet the update mask carries no `availableMemoryMb`
path, refuting the claim that a path occurs exactly when the field is
present. -/
theorem patchMasks_present_field_missing :
    (PatchOptions.availableMemoryMb
        { functionName := "foo", projectId := "proj", locationName := "us-central1",
          sourceUploadUrl := "u", labels := [], eventTriggerKeys := none,
          availableMemoryMb := some 0 }).isSome = true
    ∧ ((patchMasks
        { functionName := "foo", projectId := "proj", locationName := "us-central1",
          sourceUploadUrl := "u", labels := [], eventTriggerKeys := none,
          availableMemoryMb := some 0 }).contains "availableMemoryMb") = false := by
  decide

/-- Claim C3 witness: the amended statement evaluated at a patch input that
supplies runtime `nodejs10` and no memory limit. -/
theorem patchMasks_field_paths_witness :
    "sourceUploadUrl" ∈ patchMasks
      { functionName := "foo", projectId := "proj", locationName := "us-central1",
        sourceUploadUrl := "u", labels := [], eventTriggerKeys := none,
        runtime := some "nodejs10" }
    ∧ ("runtime" ∈ patchMasks
      { functionName := "foo", projectId := "proj", locationName := "us-central1",
        sourceUploadUrl := "u", labels := [], eventTriggerKeys := none,
        runtime := some "nodejs10" }
      ↔ jsTruthyString (some "nodejs10") = true) := by
  exact ⟨(patchMasks_field_paths _).1.1, (patchMasks_field_paths _).2.1⟩

/-! ## Claims C4 and C10: the list operation -/

theorem mem_of_lastIndexOfChar_some {c : Char} {l : List Char} {i : Nat}
    (h : lastIndexOfChar c l = some i) : c ∈ l := by
  induction l generalizing i with
  | nil => simp [lastIndexOfChar] at h
  | cons a as ih =>
      rw [lastIndexOfChar] at h
      cases h2 : lastIndexOfChar c as with
      | some j => exact List.mem_cons_of_mem _ (ih h2)
      | none =>
          rw [h2] at h
          by_cases hac : a = c
          · exact hac ▸ List.mem_cons_self a as
          · simp [hac] at h

theorem lastIndexOfChar_none_iff {c : Char} {l : List Char} :
    lastIndexOfChar c l = none ↔ c ∉ l := by
  induction l with
  | nil => simp [lastIndexOfChar]
  | cons a as ih =>
      rw [lastIndexOfChar]
      cases h : lastIndexOfChar c as with
      | some i =>
          have hm : c ∈ as := mem_of_lastIndexOfChar_some h
          simp [hm]
      | none =>
          have hnm : c ∉ as := ih.mp h
          by_cases hac : a = c
          · subst hac
            simp
          · have hca : ¬ c = a := fun e => hac e.symm
            simp [hac, hca, hnm]

theorem takeWhile_append_all {α : Type} {p : α → Bool} :
    ∀ {l₁ : List α} (l₂ : List α), (∀ x ∈ l₁, p x = true) →
      (l₁ ++ l₂).takeWhile p = l₁ ++ l₂.takeWhile p := by
  intro l₁
  induction l₁ with
  | nil => intro l₂ _; rfl
  | cons a as ih =>
      intro l₂ h
      have ha : p a = true := h a (List.mem_cons_self a as)
      simp only [List.cons_append, List.takeWhile_cons, ha, if_true]
      rw [ih l₂ (fun x hx => h x (List.mem_cons_of_mem _ hx))]

theorem takeWhile_append_stop {α : Type} {p : α → Bool} :
    ∀ {l₁ : List α} (l₂ : List α), (∃ x ∈ l₁, p x = false) →
      (l₁ ++ l₂).takeWhile p = l₁.takeWhile p := by
  intro l₁
  induction l₁ with
  | nil =>
      intro l₂ h
      obtain ⟨x, hx, _⟩ := h
      exact absurd hx (List.not_mem_nil x)
  | cons a as ih =>
      intro l₂ h
      cases ha : p a with
      | false => simp [List.takeWhile_cons, ha]
      | true =>
          obtain ⟨x, hx, hpx⟩ := h
          have hxas : x ∈ as := by
            rcases List.mem_cons.mp hx with rfl | hxas
            · rw [ha] at hpx; cases hpx
            · exact hxas
          simp only [List.cons_append, List.takeWhile_cons, ha, if_true]
          rw [ih l₂ ⟨x, hxas, hpx⟩]

theorem dropAfterLast_eq_revTakeWhile (c : Char) (l : List Char) :
    (match lastIndexOfChar c l with
     | some i => l.drop (i + 1)
     | none => l) = (l.reverse.takeWhile (fun a => a != c)).reverse := by
  induction l with
  | nil => rfl
  | cons a as ih =>
      cases h : lastIndexOfChar c as with
      | some i =>
          have hm : c ∈ as := mem_of_lastIndexOfChar_some h
          have hrev : c ∈ as.reverse := List.mem_reverse.mpr hm
          have hl : lastIndexOfChar c (a :: as) = some (i + 1) := by
            rw [lastIndexOfChar, h]
          rw [hl]
          show (a :: as).drop (i + 1 + 1) = ((a :: as).reverse.takeWhile (fun x => x != c)).reverse
          have ih2 : as.drop (i + 1) = (as.reverse.takeWhile (fun x => x != c)).reverse := by
            have h3 := ih
            rw [h] at h3
            exact h3
          rw [List.drop_succ_cons, List.reverse_cons,
            takeWhile_append_stop [a] ⟨c, hrev, by simp⟩]
          exact ih2
      | none =>
          have hnm : c ∉ as := lastIndexOfChar_none_iff.mp h
          have hall : ∀ x ∈ as.reverse, (x != c) = true := by
            intro x hx
            have hxm : x ∈ as := List.mem_reverse.mp hx
            have hne : x ≠ c := fun e => hnm (e ▸ hxm)
            simpa using hne
          by_cases hac : a = c
          · have hl : lastIndexOfChar c (a :: as) = some 0 := by
              rw [lastIndexOfChar, h]
              simp [hac]
            rw [hl]
            show (a :: as).drop (0 + 1) = ((a :: as).reverse.takeWhile (fun x => x != c)).reverse
            rw [List.reverse_cons, takeWhile_append_all [a] hall]
            have h1 : ([a].takeWhile (fun x => x != c)) = [] := by
              subst hac
              simp [List.takeWhile_cons]
            rw [h1, List.append_nil, List.reverse_reverse]
            rfl
          · have hl : lastIndexOfChar c (a :: as) = none := by
              rw [lastIndexOfChar, h]
              simp [hac]
            rw [hl]
            show (a :: as) = ((a :: as).reverse.takeWhile (fun x => x != c)).reverse
            rw [List.reverse_cons, takeWhile_append_all [a] hall]
            have h1 : ([a].takeWhile (fun x => x != c)) = [a] := by
              have : (a != c) = true := by simpa using hac
              simp [List.takeWhile_cons, this]
            rw [h1, List.reverse_append, List.reverse_reverse]
            rfl

/-- The tail segment of a fully qualified resource name after the final `/`
separator, stated independently of the implementation: the longest suffix of
the name that contains no separator. -/
def tailSegment (s : String) : String :=
  ⟨(s.data.reverse.takeWhile (fun a => a != '/')).reverse⟩

theorem jsTailAfterLastSlash_eq_tailSegment (s : String) :
    jsTailAfterLastSlash s = tailSegment s := by
  have h := dropAfterLast_eq_revTakeWhile '/' s.data
  unfold jsTailAfterLastSlash tailSegment
  cases h2 : lastIndexOfChar '/' s.data with
  | some i =>
      rw [h2] at h
      exact congrArg String.mk h
  | none =>
      rw [h2] at h
      rw [List.drop_zero]
      exact congrArg String.mk h

/-- Claim C4: for every successful list response, the operation resolves with
the (possibly empty) sequence of returned resources, each with a
`functionName` attached that equals the tail segment of the fully qualified
name of the resource after the final `/` separator. -/
theorem listFunctions_attaches_tail_segment (projectId region : String)
    (body : ListResponseBody) :
    (listFunctions projectId region (Except.ok body)).result =
      Except.ok ((body.functions.getD []).map
        (fun f => { f with functionName := some (tailSegment f.name) })) := by
  simp [listFunctions, jsTailAfterLastSlash_eq_tailSegment]

/-- Claim C10: a successful list response whose body has no `functions` field
resolves with the empty array. -/
theorem listFunctions_missing_functions_empty (projectId region : String) :
    (listFunctions projectId region (Except.ok { functions := none })).result =
      Except.ok [] := by
  rfl

/-! ## Claims C5, C6, C7, C8: error normalization and operation records -/

/-- Claim C5: on a create, patch or delete failure, the quota-exceeded
remediation message is logged exactly when the nested response status code of
the underlying error is 429, and for any other status code the underlying
error message is logged instead; the failure logs of all three operations are
those of `makeFirebaseError` (patch and delete route through
`logAndRejectOperation`, modelled from the spec as the same normalization).
The hypothesis excludes the degenerate underlying error whose own message
coincides with the remediation text. -/
theorem quota_message_iff_429 (fn : String) (ot : OperationType) (e : ApiError)
    (hmsg : e.message ≠ ERR_DEPLOYMENT_QUOTA_EXCEEDED_MESSAGE) :
    (((LogLevel.info, ERR_DEPLOYMENT_QUOTA_EXCEEDED_MESSAGE) ∈ (makeFirebaseError fn ot e).1)
      ↔ e.responseStatusCode = some 429)
    ∧ (e.responseStatusCode ≠ some 429 →
        (LogLevel.info, e.message) ∈ (makeFirebaseError fn ot e).1)
    ∧ (∀ (t : Target) (cf : CloudFunction),
        (createFunction t cf (Except.error e : Except ApiError Unit)).logs =
          (makeFirebaseError cf.name OperationType.create e).1)
    ∧ (∀ po : PatchOptions,
        (patchFunction po (Except.error e)).logs =
          (makeFirebaseError po.functionName OperationType.update e).1)
    ∧ (∀ d : DeleteOptions,
        (deleteFunction d (Except.error e)).logs =
          (makeFirebaseError d.functionName OperationType.delete e).1) := by
  refine ⟨?_, ?_, fun t cf => rfl, fun po => rfl, fun d => rfl⟩
  · by_cases h : e.responseStatusCode = some 429
    · simp [makeFirebaseError, h]
    · have hne : ¬ ERR_DEPLOYMENT_QUOTA_EXCEEDED_MESSAGE = e.message :=
        fun h2 => hmsg h2.symm
      simp [makeFirebaseError, h, hne]
  · intro h
    simp [makeFirebaseError, h]

/-- Claim C5 witness: a 429 failure logs the remediation message, and a 500
failure logs the underlying message. -/
theorem quota_message_iff_429_witness :
    ((LogLevel.info, ERR_DEPLOYMENT_QUOTA_EXCEEDED_MESSAGE) ∈
      (makeFirebaseError "foo" OperationType.create
        { message := "boom", responseStatusCode := some 429 }).1)
    ∧ ((LogLevel.info, "boom") ∈
      (makeFirebaseError "foo" OperationType.create
        { message := "boom", responseStatusCode := some 500 }).1) := by
  refine ⟨(quota_message_iff_429 "foo" OperationType.create
      { message := "boom", responseStatusCode := some 429 } (by decide)).1.mpr rfl,
    (quota_message_iff_429 "foo" OperationType.create
      { message := "boom", responseStatusCode := some 500 } (by decide)).2.1 (by decide)⟩

/-- Claim C6: on failure, `generateUploadUrl` logs the remediation hint and
`getOperation` logs its two debug lines, and both re-raise exactly the
original error value, unwrapped and unsubstituted. -/
theorem reraise_original_error (p l : String) (tgt : OperationTarget) (e : ApiError) :
    ((generateUploadUrl p l (Except.error e)).result = Except.error e)
    ∧ ((LogLevel.info, ERR_GENERATE_UPLOAD_URL_FAILURE_MESSAGE) ∈
        (generateUploadUrl p l (Except.error e)).logs)
    ∧ ((getOperation tgt (Except.error e : Except ApiError Unit)).result = Except.error e)
    ∧ ((LogLevel.debug, "[functions] failed to get status of operation: " ++ tgt.name) ∈
        (getOperation tgt (Except.error e : Except ApiError Unit)).logs)
    ∧ ((LogLevel.debug, "[functions] " ++ e.message) ∈
        (getOperation tgt (Except.error e : Except ApiError Unit)).logs) := by
  refine ⟨rfl, ?_, rfl, ?_, ?_⟩
  · exact List.mem_singleton.mpr rfl
  · exact List.mem_cons_self _ _
  · exact List.mem_cons_of_mem _ (List.mem_singleton.mpr rfl)

/-- Claim C7: every failing create, patch or delete call fails with a
`FirebaseError` whose message is `Failed to <operationType> function <name>`,
whose `original` field is the underlying error, and whose context names the
function (the create operation names the function by the `name` field of the
descriptor; patch and delete use `options.functionName`). -/
theorem wrapped_error_shape (fn : String) (ot : OperationType) (e : ApiError) :
    ((makeFirebaseError fn ot e).2.message = "Failed to " ++ ot.str ++ " function " ++ fn)
    ∧ ((makeFirebaseError fn ot e).2.original = e)
    ∧ ((makeFirebaseError fn ot e).2.contextFunction = fn)
    ∧ (∀ (t : Target) (cf : CloudFunction),
        (createFunction t cf (Except.error e : Except ApiError Unit)).result =
          Except.error (makeFirebaseError cf.name OperationType.create e).2)
    ∧ (∀ po : PatchOptions,
        (patchFunction po (Except.error e)).result =
          Except.error (makeFirebaseError po.functionName OperationType.update e).2)
    ∧ (∀ d : DeleteOptions,
        (deleteFunction d (Except.error e)).result =
          Except.error (makeFirebaseError d.functionName OperationType.delete e).2) := by
  exact ⟨rfl, rfl, rfl, fun t cf => rfl, fun po => rfl, fun d => rfl⟩

/-- Claim C8: every successful patch call resolves with the record
`{ func := <target identifier>, done := false, name := <server-returned name>,
type := "update" }`, and every successful delete call with the same record
shape carrying `type := "delete"`. -/
theorem operation_record_on_success (po : PatchOptions) (d : DeleteOptions)
    (resp : OperationResponseBody) :
    ((patchFunction po (Except.ok resp)).result =
      Except.ok
        { func := "projects/" ++ po.projectId ++ "/locations/" ++ po.locationName
            ++ "/functions/" ++ po.functionName,
          done := false, name := resp.name, type := "update" })
    ∧ ((deleteFunction d (Except.ok resp)).result =
      Except.ok
        { func := "projects/" ++ d.projectId ++ "/locations/" ++ d.region
            ++ "/functions/" ++ d.functionName,
          done := false, name := resp.name, type := "delete" }) := by
  exact ⟨rfl, rfl⟩

end CF
